/-
Verification of the leader-follower detection engine of the
taiwan-stock-leader-follower-analysis repository.

The engine (signal identification, time-windowed response matching,
success-rate aggregation) is implemented with near-identical logic in
`csv_based_leader_follower_analyzer.py` and
`sector_leader_follower_analyzer.py`; the definitions below are a shallow
embedding of that code (the csv variant's line numbers are cited; the
sector variant differs only in default parameter values, which are
explicit arguments here).

Modelling conventions:
* monetary amounts and prices are exact rationals (the source uses
  Python/pandas floats on data where every arithmetic step is exact);
* timestamps have minute resolution, as in the minute-bar data: a bar
  carries a calendar day index and an hour/minute of day, and
  `dtm` is its absolute minute count, so `total_seconds() / 60`
  equals the `dtm` difference;
* stock symbols are modelled as naturals, order-isomorphic to the
  ticker strings under their sort order (only equality and the sort
  order of symbols are ever used by the code);
* the unused columns (`volume`, `medium_buy`, `medium_sell`) are
  omitted: no line of the embedded code reads them;
* pandas `NaN` propagation at the first bar of `pct_change` is
  modelled by `Option`: a missing return compares as `false`, exactly
  as `NaN > x` is `False` in pandas.
-/
import Mathlib

namespace LeaderFollower

/-- One minute bar of one stock, as produced by the loader
(`load_data`, csv analyzer lines 140-232). -/
structure Bar where
  symbol : ℕ
  day : ℕ
  hour : ℕ
  minute : ℕ
  close_price : ℚ
  large_buy : ℚ
  xlarge_buy : ℚ
  large_sell : ℚ
  xlarge_sell : ℚ
  deriving DecidableEq, Repr, Inhabited

/-- Absolute minute count of a bar's timestamp (day and time of day
combined, minute resolution). -/
def dtm (b : Bar) : ℕ := 1440 * b.day + 60 * b.hour + b.minute

/-- Column `large_total = large_buy + xlarge_buy` (line 223). -/
def largeTotal (b : Bar) : ℚ := b.large_buy + b.xlarge_buy

/-- Column `large_net = (large_buy + xlarge_buy) - (large_sell + xlarge_sell)`
(lines 219-220). -/
def largeNet (b : Bar) : ℚ := (b.large_buy + b.xlarge_buy) - (b.large_sell + b.xlarge_sell)

/-- Trading-hour mask of `load_data` (lines 209-213):
`((hour == 9) & (minute >= 1)) | ((hour >= 10) & (hour <= 12)) |
((hour == 13) & (minute <= 30))`. -/
def tradingMask (b : Bar) : Bool :=
  (b.hour == 9 && decide (1 ≤ b.minute)) ||
  (decide (10 ≤ b.hour) && decide (b.hour ≤ 12)) ||
  (b.hour == 13 && decide (b.minute ≤ 30))

/-- Insertion step of a stable insertion sort with a boolean comparator. -/
def insLe {α : Type} (le : α → α → Bool) (x : α) : List α → List α
  | [] => [x]
  | y :: t => if le x y then x :: y :: t else y :: insLe le x t

/-- Stable sort by a boolean comparator (insertion sort; the source's
key `(symbol, datetime)` is unique per row, so any sort yields the same
order as `sort_values(['symbol', 'datetime'])`). -/
def sortLe {α : Type} (le : α → α → Bool) (l : List α) : List α :=
  l.foldr (insLe le) []

/-- Lexicographic `(symbol, datetime)` comparator of the
`sort_values(['symbol', 'datetime'])` call (line 226). -/
def barLe (a b : Bar) : Bool :=
  decide (a.symbol < b.symbol) || (a.symbol == b.symbol && decide (dtm a ≤ dtm b))

/-- Dataset preparation of `load_data` (lines 204-232): restrict to the
trading-hour mask, then sort by `(symbol, datetime)`.  (The derived
`large_net` / `large_total` columns are the functions above.) -/
def loadData (raws : List Bar) : List Bar :=
  sortLe barLe (raws.filter tradingMask)

/-- Rows of one symbol, in dataset order (`self.data[self.data['symbol'] == symbol]`). -/
def symbolBars (data : List Bar) (s : ℕ) : List Bar :=
  data.filter (fun b => b.symbol == s)

/-- Insertion step of sorted-unique key collection. -/
def insKey {α : Type} [LinearOrder α] (k : α) : List α → List α
  | [] => [k]
  | h :: t => if k < h then k :: h :: t else if k = h then h :: t else h :: insKey k t

/-- Sorted list of the distinct keys of a list, ascending; models both
`sorted(self.data['symbol'].unique())` (line 229) and the ascending key
order of pandas `groupby` output (`sort=True` default). -/
def sortedKeys {α : Type} [LinearOrder α] (l : List α) : List α :=
  l.foldr insKey []

/-- `self.stocks` (line 229): sorted distinct symbols of the dataset. -/
def stocks (data : List Bar) : List ℕ :=
  sortedKeys (data.map (·.symbol))

/-- Column `return_1min = close_price.pct_change()` (line 242) at row
`i` of one symbol's bar sequence: fractional close-to-close change,
`none` (pandas `NaN`) at the first row. -/
def return1 (bars : List Bar) (i : ℕ) : Option ℚ :=
  match i with
  | 0 => none
  | j + 1 =>
    match bars[j + 1]?, bars[j]? with
    | some b, some pb => some ((b.close_price - pb.close_price) / pb.close_price)
    | _, _ => none

/-- Values of a trailing `rolling(window=30, min_periods=1)` window at
row `i`: rows `max 0 (i - 29)` through `i`. -/
def trailing30 (vals : List ℚ) (i : ℕ) : List ℚ :=
  (vals.take (i + 1)).drop (i + 1 - 30)

/-- Column `large_total_ma30 = large_total.rolling(window=30,
min_periods=1).mean()` (line 258). -/
def largeTotalMA30 (bars : List Bar) (i : ℕ) : ℚ :=
  let w := trailing30 (bars.map largeTotal) i
  w.sum / w.length

/-- Column `rolling_max_30min = close_price.rolling(window=30,
min_periods=1).max()` (line 250); the window always contains row `i`
itself, so seeding the fold with that row's close is exact. -/
def rollingMax30 (bars : List Bar) (i : ℕ) : ℚ :=
  (trailing30 (bars.map (·.close_price)) i).foldl max (bars.getD i default).close_price

/-- Column `daily_high = groupby(date)['close_price'].transform('max')`
(line 246): the maximum close over ALL bars of the same calendar day,
later bars of the day included; row `i` itself is in the group, so
seeding the fold with its close is exact. -/
def dailyHigh (bars : List Bar) (i : ℕ) : ℚ :=
  let b := bars.getD i default
  ((bars.filter (fun c => c.day == b.day)).map (·.close_price)).foldl max b.close_price

/-- Column `daily_low = groupby(date)['close_price'].transform('min')`
(line 247). -/
def dailyLow (bars : List Bar) (i : ℕ) : ℚ :=
  let b := bars.getD i default
  ((bars.filter (fun c => c.day == b.day)).map (·.close_price)).foldl min b.close_price

/-- Column `is_daily_high = close_price >= daily_high` (line 253). -/
def isDailyHigh (bars : List Bar) (i : ℕ) : Bool :=
  decide (dailyHigh bars i ≤ (bars.getD i default).close_price)

/-- Column `is_daily_low = close_price <= daily_low` (line 254). -/
def isDailyLow (bars : List Bar) (i : ℕ) : Bool :=
  decide ((bars.getD i default).close_price ≤ dailyLow bars i)

/-- Column `is_30min_high = close_price >= rolling_max_30min` (line 255). -/
def is30minHigh (bars : List Bar) (i : ℕ) : Bool :=
  decide (rollingMax30 bars i ≤ (bars.getD i default).close_price)

/-- Tunable thresholds of `identify_leader_signals` (line 263; the csv
analyzer defaults to `(2.0, 1000000, 0.01)`, the sector analyzer to
`(1.3, 5000000, 0.003)`). -/
structure SignalParams where
  money_multiplier : ℚ
  min_amount : ℚ
  min_price_change : ℚ
  deriving DecidableEq, Repr, Inhabited

/-- Column `leader_signal` (lines 269-279): the five-conjunct signal
predicate evaluated at row `i` of one symbol's bar sequence.  A missing
`return_1min` (`NaN` in pandas) fails the comparison, as in pandas. -/
def leaderSignal (p : SignalParams) (bars : List Bar) (i : ℕ) : Bool :=
  let b := bars.getD i default
  decide (largeTotalMA30 bars i * p.money_multiplier < largeTotal b) &&
  decide (p.min_amount < largeTotal b) &&
  decide (0 < largeNet b) &&
  (match return1 bars i with
   | none => false
   | some r => decide (p.min_price_change < r)) &&
  (isDailyHigh bars i || is30minHigh bars i)

/-- Column `enhanced_leader_signal` (lines 282-286): the leader signal
with the multiplier tightened by `1.5` and the daily high required. -/
def enhancedLeaderSignal (p : SignalParams) (bars : List Bar) (i : ℕ) : Bool :=
  leaderSignal p bars i &&
  decide (largeTotalMA30 bars i * p.money_multiplier * (3 / 2) < largeTotal (bars.getD i default)) &&
  isDailyHigh bars i

/-- Snapshot of one flagged minute, as carried by the rows of
`self.data[self.data['leader_signal']]` that the matcher iterates
(lines 302, 312-318). -/
structure SigRow where
  symbol : ℕ
  time : ℕ
  close_price : ℚ
  large_total : ℚ
  large_net : ℚ
  return_1min : Option ℚ
  is_enhanced : Bool
  deriving DecidableEq, Repr, Inhabited

/-- Signal rows of one symbol's bar sequence, in time order. -/
def signalRowsOfSymbol (p : SignalParams) (bars : List Bar) : List SigRow :=
  (List.range bars.length).filterMap fun i =>
    if leaderSignal p bars i then
      let b := bars.getD i default
      some ⟨b.symbol, dtm b, b.close_price, largeTotal b, largeNet b,
        return1 bars i, enhancedLeaderSignal p bars i⟩
    else none

/-- All signal rows in dataset order: the dataset is sorted by
`(symbol, datetime)`, so iterating `self.data[self.data['leader_signal']]`
(line 312) visits symbols in ascending order and each symbol's signals in
time order. -/
def leaderSignalRows (p : SignalParams) (data : List Bar) : List SigRow :=
  (stocks data).flatMap fun s => signalRowsOfSymbol p (symbolBars data s)

/-- One emitted leader-follower pair (lines 363-377). -/
structure PairRec where
  leader_symbol : ℕ
  follower_symbol : ℕ
  leader_time : ℕ
  follower_time : ℕ
  time_lag_minutes : ℚ
  leader_close : ℚ
  leader_large_total : ℚ
  leader_large_net : ℚ
  leader_return_1min : ℚ
  follower_base_price : ℚ
  follower_trigger_price : ℚ
  follower_gain_pct : ℚ
  is_enhanced_signal : Bool
  deriving DecidableEq, Repr, Inhabited

/-- Column `gain_pct = (close_price - base_price) / base_price * 100`
(lines 351-353). -/
def gainPct (base : ℚ) (b : Bar) : ℚ := (b.close_price - base) / base * 100

/-- One iteration of the inner loop of
`analyze_leader_follower_relationships` (lines 329-378): for signal
`sig` and candidate follower `f`, find the base price (latest follower
close at or before the signal, lines 330-338), collect the window
`signal_time < datetime <= signal_time + max_lag` (lines 341-348), and
emit the first bar whose gain crosses `min_gain` (lines 356-378).
`(first_gain['datetime'] - signal_time).total_seconds() / 60` is the
minute difference of the two timestamps. -/
def matchOne (max_lag min_gain : ℚ) (data : List Bar) (sig : SigRow) (f : ℕ) :
    Option PairRec :=
  let fbars := symbolBars data f
  let baseData := fbars.filter fun b => decide (dtm b ≤ sig.time)
  match baseData.getLast? with
  | none => none
  | some lastBar =>
    let base_price := lastBar.close_price
    let window := fbars.filter fun b =>
      decide (sig.time < dtm b) && decide ((dtm b : ℚ) ≤ (sig.time : ℚ) + max_lag)
    if window.isEmpty then none
    else
      let sigGains := window.filter fun b => decide (min_gain ≤ gainPct base_price b)
      match sigGains.head? with
      | none => none
      | some first =>
        some { leader_symbol := sig.symbol
               follower_symbol := f
               leader_time := sig.time
               follower_time := dtm first
               time_lag_minutes := (dtm first : ℚ) - (sig.time : ℚ)
               leader_close := sig.close_price
               leader_large_total := sig.large_total
               leader_large_net := sig.large_net
               leader_return_1min := sig.return_1min.getD 0 * 100
               follower_base_price := base_price
               follower_trigger_price := first.close_price
               follower_gain_pct := gainPct base_price first
               is_enhanced_signal := sig.is_enhanced }

/-- The relationship matcher `analyze_leader_follower_relationships`
(lines 305-389): every signal row crossed with every other stock. -/
def analyzePairs (max_lag min_gain : ℚ) (p : SignalParams) (data : List Bar) :
    List PairRec :=
  (leaderSignalRows p data).flatMap fun sig =>
    ((stocks data).filter (fun f => f != sig.symbol)).filterMap
      (matchOne max_lag min_gain data sig)

/-- Arithmetic mean, as pandas `mean()` on a nonempty column (junk `0`
on an empty list, which the code never hits on a produced table row). -/
def qmean (l : List ℚ) : ℚ := l.sum / l.length

/-- Ascending insertion for the median computation. -/
def insQ (x : ℚ) : List ℚ → List ℚ
  | [] => [x]
  | y :: t => if x ≤ y then x :: y :: t else y :: insQ x t

/-- Ascending sort of a rational list. -/
def sortQ (l : List ℚ) : List ℚ := l.foldr insQ []

/-- Median as pandas `median()`: middle element of the sorted values, or
the mean of the two middle elements for an even count. -/
def qmedian (l : List ℚ) : ℚ :=
  let s := sortQ l
  let n := s.length
  if n % 2 == 1 then s.getD (n / 2) 0
  else (s.getD (n / 2 - 1) 0 + s.getD (n / 2) 0) / 2

/-- Maximum as pandas `max()` on a nonempty column. -/
def qmax (l : List ℚ) : ℚ := l.foldl max (l.headD 0)

/-- Row of the per-leader ranking table (lines 408-415): pair count and
the mean lag / mean gain / mean leader `large_total` of that leader. -/
structure LeaderRow where
  symbol : ℕ
  count : ℕ
  mean_lag : ℚ
  mean_gain : ℚ
  mean_large_total : ℚ
  deriving DecidableEq, Repr, Inhabited

/-- Row of the per-follower ranking table (lines 418-424). -/
structure FollowerRow where
  symbol : ℕ
  count : ℕ
  mean_lag : ℚ
  mean_gain : ℚ
  deriving DecidableEq, Repr, Inhabited

/-- Row of the per-(leader, follower) table (lines 427-432). -/
structure PairRow where
  leader : ℕ
  follower : ℕ
  count : ℕ
  mean_lag : ℚ
  mean_gain : ℚ
  deriving DecidableEq, Repr, Inhabited

/-- Insertion step of the stable ascending sort by count. -/
def insCount {α : Type} (cnt : α → ℕ) (x : α) : List α → List α
  | [] => [x]
  | y :: t => if cnt x ≤ cnt y then x :: y :: t else y :: insCount cnt x t

/-- Stable ascending sort by count (ties keep their input order). -/
def sortCountAsc {α : Type} (cnt : α → ℕ) (l : List α) : List α :=
  l.foldr (insCount cnt) []

/-- Model of `DataFrame.sort_values(count_column, ascending=False)`
(lines 415, 424, 432).  pandas `nargsort` computes a descending sort by
reversing the values BEFORE an ascending argsort and reversing the
resulting indexer AFTER, so with a stable underlying argsort (numpy
argsort is insertion sort at the small sizes of these ranking tables)
the two reversals cancel on ties: rows with equal counts keep their
input order.  `sortCountAsc` is a stable ascending insertion sort, so
the reverse-sort-reverse composite below is exactly that stable
descending sort.  (The `.round(2)` the code applies to the mean columns
before sorting does not touch the integer count column and plays no
role in the ordering.) -/
def sortCountDesc {α : Type} (cnt : α → ℕ) (l : List α) : List α :=
  (sortCountAsc cnt l.reverse).reverse

/-- The per-leader ranking table `leader_stats` (lines 408-415):
`groupby('leader_symbol')` emits its ascending-key grouped rows, then
`sort_values('跟漲次數', ascending=False)` ranks them by count. -/
def leaderRanking (pairs : List PairRec) : List LeaderRow :=
  sortCountDesc LeaderRow.count <|
    (sortedKeys (pairs.map (·.leader_symbol))).map fun k =>
      let g := pairs.filter (fun pr => pr.leader_symbol == k)
      ⟨k, g.length, qmean (g.map (·.time_lag_minutes)),
        qmean (g.map (·.follower_gain_pct)),
        qmean (g.map (·.leader_large_total))⟩

/-- The per-follower ranking table `follower_stats` (lines 418-424). -/
def followerRanking (pairs : List PairRec) : List FollowerRow :=
  sortCountDesc FollowerRow.count <|
    (sortedKeys (pairs.map (·.follower_symbol))).map fun k =>
      let g := pairs.filter (fun pr => pr.follower_symbol == k)
      ⟨k, g.length, qmean (g.map (·.time_lag_minutes)),
        qmean (g.map (·.follower_gain_pct))⟩

/-- The per-(leader, follower) table `pair_stats` (lines 427-432);
`groupby` on two columns orders its keys lexicographically. -/
def bestPairs (pairs : List PairRec) : List PairRow :=
  sortCountDesc PairRow.count <|
    (sortedKeys (pairs.map fun pr => toLex (pr.leader_symbol, pr.follower_symbol))).map
      fun k =>
        let g := pairs.filter fun pr =>
          pr.leader_symbol == (ofLex k).1 && pr.follower_symbol == (ofLex k).2
        ⟨(ofLex k).1, (ofLex k).2, g.length, qmean (g.map (·.time_lag_minutes)),
          qmean (g.map (·.follower_gain_pct))⟩

/-- The nonempty-case summary dictionary of `calculate_success_rates`
(lines 398-438). -/
structure SuccessStats where
  total_pairs : ℕ
  average_time_lag : ℚ
  median_time_lag : ℚ
  average_follower_gain : ℚ
  max_follower_gain : ℚ
  leader_ranking : List LeaderRow
  follower_ranking : List FollowerRow
  best_pairs : List PairRow
  deriving DecidableEq, Repr, Inhabited

/-- Return value of `calculate_success_rates`: the empty dict `{}` on an
empty pair collection (line 395-396), or the populated stats dict. -/
inductive StatsResult where
  | emptyDict : StatsResult
  | stats : SuccessStats → StatsResult
  deriving DecidableEq, Repr, Inhabited

/-- The aggregator `calculate_success_rates` (lines 391-441): an empty
pair collection short-circuits to the empty dict `{}`; otherwise the
global statistics and the three ranking tables are built.  The function
is total: no path raises. -/
def calculate_success_rates (pairs : List PairRec) : StatsResult :=
  if pairs.isEmpty then .emptyDict
  else .stats
    { total_pairs := pairs.length
      average_time_lag := qmean (pairs.map (·.time_lag_minutes))
      median_time_lag := qmedian (pairs.map (·.time_lag_minutes))
      average_follower_gain := qmean (pairs.map (·.follower_gain_pct))
      max_follower_gain := qmax (pairs.map (·.follower_gain_pct))
      leader_ranking := leaderRanking pairs
      follower_ranking := followerRanking pairs
      best_pairs := bestPairs pairs }

/-
Concrete example data used to witness the theorems below: two stocks
(symbol 1 and symbol 2) on one trading day.  Stock 1 posts a large-order
surge with a price breakout at 09:02; stock 2, whose last price at the
signal is 20, crosses the 0.5% gain floor at 09:03.
-/

/-- Bar of stock 1 at 09:01, close 10, no large orders. -/
def exA1 : Bar := ⟨1, 0, 9, 1, 10, 0, 0, 0, 0⟩

/-- Bar of stock 1 at 09:02, close 11, large-buy amount 6. -/
def exA2 : Bar := ⟨1, 0, 9, 2, 11, 6, 0, 0, 0⟩

/-- Bar of stock 2 at 09:01, close 20. -/
def exB1 : Bar := ⟨2, 0, 9, 1, 20, 0, 0, 0, 0⟩

/-- Bar of stock 2 at 09:03, close 21 (a 5% gain over 20). -/
def exB2 : Bar := ⟨2, 0, 9, 3, 21, 0, 0, 0, 0⟩

/-- Example dataset, already in `(symbol, datetime)` order. -/
def exData : List Bar := [exA1, exA2, exB1, exB2]

/-- Example thresholds (the sector analyzer's shape of defaults, scaled
to the small amounts of the example). -/
def exParams : SignalParams := ⟨13 / 10, 5, 3 / 1000⟩

/-- The one signal row the example produces: stock 1 at minute 542
(09:02). -/
def exSig : SigRow := ⟨1, 542, 11, 6, 6, some (1 / 10), true⟩

/-- The one pair the example run emits: leader 1 at 09:02, follower 2 at
09:03, lag one minute, gain 5%. -/
def exPair : PairRec := ⟨1, 2, 542, 543, 1, 11, 6, 6, 10, 20, 21, 5, true⟩

/-- Misconfigured thresholds: `money_multiplier = 1/2 ≤ 1`. -/
def exParams6 : SignalParams := ⟨1 / 2, 5, 3 / 1000⟩

/-- Signal row still produced under the misconfigured thresholds. -/
def exSig6 : SigRow := ⟨1, 542, 11, 6, 6, some (1 / 10), true⟩

/-- Alternative second bar of stock 1 (same day, later minute, lower
close 9) for the lookahead counterexample. -/
def exL2 : Bar := ⟨1, 0, 9, 2, 9, 0, 0, 0, 0⟩

/-- Aggregation example pair: leader 1, follower 2. -/
def aggPair1 : PairRec := ⟨1, 2, 542, 543, 1, 11, 6, 6, 10, 20, 21, 5, true⟩

/-- Aggregation example pair: leader 2, follower 1 (so both leaders have
count one — a tie). -/
def aggPair2 : PairRec := ⟨2, 1, 600, 601, 1, 21, 7, 7, 10, 10, 11, 10, false⟩

/-
Evaluation lemmas: the engine evaluated on the example data.
-/

lemma exSignalA0 : leaderSignal exParams [exA1, exA2] 0 = false := by
  norm_num [leaderSignal, return1]

lemma exSignalA1 : leaderSignal exParams [exA1, exA2] 1 = true := by
  norm_num [leaderSignal, exParams, largeTotalMA30, trailing30, largeTotal, largeNet,
    return1, dailyHigh, isDailyHigh, rollingMax30, is30minHigh, exA1, exA2]

lemma exEnhancedA1 : enhancedLeaderSignal exParams [exA1, exA2] 1 = true := by
  norm_num [enhancedLeaderSignal, leaderSignal, exParams, largeTotalMA30, trailing30,
    largeTotal, largeNet, return1, dailyHigh, isDailyHigh, rollingMax30, is30minHigh,
    exA1, exA2]

lemma exSignalB0 : leaderSignal exParams [exB1, exB2] 0 = false := by
  norm_num [leaderSignal, return1]

lemma exSignalB1 : leaderSignal exParams [exB1, exB2] 1 = false := by
  norm_num [leaderSignal, exParams, largeTotalMA30, trailing30, largeTotal, largeNet,
    return1, dailyHigh, isDailyHigh, rollingMax30, is30minHigh, exB1, exB2]

lemma exSigRowsA : signalRowsOfSymbol exParams [exA1, exA2] = [exSig] := by
  rw [signalRowsOfSymbol, show ([exA1, exA2] : List Bar).length = 2 from rfl,
    show List.range 2 = [0, 1] from rfl]
  simp only [List.filterMap_cons, List.filterMap_nil, exSignalA0, exSignalA1,
    Bool.false_eq_true, reduceIte, exEnhancedA1]
  norm_num [exSig, dtm, exA1, exA2, largeTotal, largeNet, return1]

lemma exSigRowsB : signalRowsOfSymbol exParams [exB1, exB2] = [] := by
  rw [signalRowsOfSymbol, show ([exB1, exB2] : List Bar).length = 2 from rfl,
    show List.range 2 = [0, 1] from rfl]
  simp only [List.filterMap_cons, List.filterMap_nil, exSignalB0, exSignalB1,
    Bool.false_eq_true, reduceIte]

lemma exStocks : stocks exData = [1, 2] := by decide

lemma exSymA : symbolBars exData 1 = [exA1, exA2] := by decide

lemma exSymB : symbolBars exData 2 = [exB1, exB2] := by decide

lemma exSignals : leaderSignalRows exParams exData = [exSig] := by
  simp [leaderSignalRows, exStocks, exSymA, exSymB, exSigRowsA, exSigRowsB]

lemma exMatch : matchOne 30 (1 / 2) exData exSig 2 = some exPair := by
  norm_num [matchOne, symbolBars, exData, exA1, exA2, exB1, exB2, dtm, gainPct, exSig,
    exPair, List.filter, List.getLast?, List.head?, List.isEmpty]

lemma exRun : analyzePairs 30 (1 / 2) exParams exData = [exPair] := by
  have hf : List.filter (fun f => f != exSig.symbol) (stocks exData) = [2] := by decide
  rw [analyzePairs, exSignals]
  simp only [List.flatMap_cons, List.flatMap_nil, hf, List.filterMap_cons,
    List.filterMap_nil, exMatch, List.append_nil]

lemma exLoad : loadData exData = exData := by decide

lemma exSignalA1w : leaderSignal exParams6 [exA1, exA2] 1 = true := by
  norm_num [leaderSignal, exParams6, largeTotalMA30, trailing30, largeTotal, largeNet,
    return1, dailyHigh, isDailyHigh, rollingMax30, is30minHigh, exA1, exA2]

lemma exSignalA0w : leaderSignal exParams6 [exA1, exA2] 0 = false := by
  norm_num [leaderSignal, return1]

lemma exEnhancedA1w : enhancedLeaderSignal exParams6 [exA1, exA2] 1 = true := by
  norm_num [enhancedLeaderSignal, leaderSignal, exParams6, largeTotalMA30, trailing30,
    largeTotal, largeNet, return1, dailyHigh, isDailyHigh, rollingMax30, is30minHigh,
    exA1, exA2]

lemma exSignalB0w : leaderSignal exParams6 [exB1, exB2] 0 = false := by
  norm_num [leaderSignal, return1]

lemma exSignalB1w : leaderSignal exParams6 [exB1, exB2] 1 = false := by
  norm_num [leaderSignal, exParams6, largeTotalMA30, trailing30, largeTotal, largeNet,
    return1, dailyHigh, isDailyHigh, rollingMax30, is30minHigh, exB1, exB2]

lemma exSigRowsA6 : signalRowsOfSymbol exParams6 [exA1, exA2] = [exSig6] := by
  rw [signalRowsOfSymbol, show ([exA1, exA2] : List Bar).length = 2 from rfl,
    show List.range 2 = [0, 1] from rfl]
  simp only [List.filterMap_cons, List.filterMap_nil, exSignalA0w, exSignalA1w,
    Bool.false_eq_true, reduceIte, exEnhancedA1w]
  norm_num [exSig6, dtm, exA1, exA2, largeTotal, largeNet, return1]

lemma exSigRowsB6 : signalRowsOfSymbol exParams6 [exB1, exB2] = [] := by
  rw [signalRowsOfSymbol, show ([exB1, exB2] : List Bar).length = 2 from rfl,
    show List.range 2 = [0, 1] from rfl]
  simp only [List.filterMap_cons, List.filterMap_nil, exSignalB0w, exSignalB1w,
    Bool.false_eq_true, reduceIte]

lemma exSignals6 : leaderSignalRows exParams6 exData = [exSig6] := by
  simp [leaderSignalRows, exStocks, exSymA, exSymB, exSigRowsA6, exSigRowsB6]

lemma exLeaderTable :
    (leaderRanking [aggPair1, aggPair2]).map (fun r => (r.symbol, r.count)) =
      [(1, 1), (2, 1)] := by
  simp [leaderRanking, sortedKeys, insKey, sortCountDesc, sortCountAsc, insCount,
    aggPair1, aggPair2, List.filter]

/-
General lemmas about the sorting and grouping helpers.
-/

lemma mem_insLe {α : Type} (le : α → α → Bool) (x a : α) :
    ∀ l : List α, a ∈ insLe le x l ↔ a = x ∨ a ∈ l := by
  intro l
  induction l with
  | nil => simp [insLe]
  | cons y t ih =>
    simp only [insLe]
    split
    · simp [List.mem_cons]
    · simp only [List.mem_cons, ih]
      tauto

lemma mem_sortLe {α : Type} (le : α → α → Bool) (l : List α) (a : α) :
    a ∈ sortLe le l ↔ a ∈ l := by
  induction l with
  | nil => simp [sortLe]
  | cons x t ih =>
    show a ∈ insLe le x (sortLe le t) ↔ _
    rw [mem_insLe, ih, List.mem_cons]

lemma mem_insKey {α : Type} [LinearOrder α] (k a : α) :
    ∀ l : List α, a ∈ insKey k l ↔ a = k ∨ a ∈ l := by
  intro l
  induction l with
  | nil => simp [insKey]
  | cons h t ih =>
    simp only [insKey]
    split
    · simp [List.mem_cons]
    · split
      · rename_i hne heq
        subst heq
        simp only [List.mem_cons]
        tauto
      · simp only [List.mem_cons, ih]
        tauto

lemma pairwise_insKey {α : Type} [LinearOrder α] (k : α) :
    ∀ l : List α, l.Pairwise (· < ·) → (insKey k l).Pairwise (· < ·) := by
  intro l
  induction l with
  | nil => intro _; simp [insKey]
  | cons h t ih =>
    intro hp
    rcases List.pairwise_cons.mp hp with ⟨hh, ht⟩
    simp only [insKey]
    split
    · rename_i hlt
      refine List.pairwise_cons.mpr ⟨?_, hp⟩
      intro b hb
      rcases List.mem_cons.mp hb with rfl | hbt
      · exact hlt
      · exact lt_trans hlt (hh b hbt)
    · split
      · exact hp
      · rename_i hnlt hne
        refine List.pairwise_cons.mpr ⟨?_, ih ht⟩
        intro b hb
        rcases (mem_insKey k b t).mp hb with rfl | hbt
        · exact lt_of_le_of_ne (le_of_not_lt hnlt) (Ne.symm hne)
        · exact hh b hbt

lemma pairwise_sortedKeys {α : Type} [LinearOrder α] (l : List α) :
    (sortedKeys l).Pairwise (· < ·) := by
  induction l with
  | nil => simp [sortedKeys]
  | cons x t ih => exact pairwise_insKey x _ ih

lemma mem_insCount {α : Type} (cnt : α → ℕ) (x a : α) :
    ∀ l : List α, a ∈ insCount cnt x l ↔ a = x ∨ a ∈ l := by
  intro l
  induction l with
  | nil => simp [insCount]
  | cons y t ih =>
    simp only [insCount]
    split
    · simp [List.mem_cons]
    · simp only [List.mem_cons, ih]
      tauto

lemma mem_sortCountAsc {α : Type} (cnt : α → ℕ) (l : List α) (a : α) :
    a ∈ sortCountAsc cnt l ↔ a ∈ l := by
  induction l with
  | nil => simp [sortCountAsc]
  | cons x t ih =>
    show a ∈ insCount cnt x (sortCountAsc cnt t) ↔ _
    rw [mem_insCount, ih, List.mem_cons]

lemma pairwise_insCount {α K : Type} [LinearOrder K] (cnt : α → ℕ) (key : α → K) (x : α) :
    ∀ m : List α,
      m.Pairwise (fun a b => cnt a < cnt b ∨ (cnt a = cnt b ∧ key a < key b)) →
      (∀ b ∈ m, key x < key b) →
      (insCount cnt x m).Pairwise
        (fun a b => cnt a < cnt b ∨ (cnt a = cnt b ∧ key a < key b)) := by
  intro m
  induction m with
  | nil => intro _ _; simp [insCount]
  | cons y t ih =>
    intro hm hx
    rcases List.pairwise_cons.mp hm with ⟨hy, ht⟩
    simp only [insCount]
    split
    · rename_i hle
      refine List.pairwise_cons.mpr ⟨?_, hm⟩
      intro b hb
      rcases List.mem_cons.mp hb with rfl | hbt
      · rcases lt_or_eq_of_le hle with hlt | heq
        · exact Or.inl hlt
        · exact Or.inr ⟨heq, hx b (List.mem_cons_self _ _)⟩
      · rcases hy b hbt with hlt | ⟨heq, _⟩
        · exact Or.inl (lt_of_le_of_lt hle hlt)
        · rcases lt_or_eq_of_le hle with hlt2 | heq2
          · exact Or.inl (heq ▸ hlt2)
          · exact Or.inr ⟨heq2.trans heq, hx b (List.mem_cons_of_mem y hbt)⟩
    · rename_i hnle
      have hylt : cnt y < cnt x := lt_of_not_le hnle
      refine List.pairwise_cons.mpr
        ⟨?_, ih ht (fun b hb => hx b (List.mem_cons_of_mem y hb))⟩
      intro b hb
      rcases (mem_insCount cnt x b t).mp hb with rfl | hbt
      · exact Or.inl hylt
      · exact hy b hbt

lemma sortCountAsc_pairwise {α K : Type} [LinearOrder K] (cnt : α → ℕ) (key : α → K) :
    ∀ l : List α, l.Pairwise (fun a b => key a < key b) →
      (sortCountAsc cnt l).Pairwise
        (fun a b => cnt a < cnt b ∨ (cnt a = cnt b ∧ key a < key b)) := by
  intro l
  induction l with
  | nil => intro _; simp [sortCountAsc]
  | cons x t ih =>
    intro hp
    rcases List.pairwise_cons.mp hp with ⟨hx, ht⟩
    show (insCount cnt x (sortCountAsc cnt t)).Pairwise _
    exact pairwise_insCount cnt key x _ (ih ht)
      (fun b hb => hx b ((mem_sortCountAsc cnt t b).mp hb))

lemma sortCountDesc_pairwise {α K : Type} [LinearOrder K] (cnt : α → ℕ) (key : α → K)
    (l : List α) (h : l.Pairwise (fun a b => key a < key b)) :
    (sortCountDesc cnt l).Pairwise
      (fun a b => cnt b < cnt a ∨ (cnt b = cnt a ∧ key a < key b)) := by
  unfold sortCountDesc
  rw [List.pairwise_reverse]
  have hrev : l.reverse.Pairwise
      (fun a b => OrderDual.toDual (key a) < OrderDual.toDual (key b)) := by
    rw [List.pairwise_reverse]
    simpa using h
  have hmain := sortCountAsc_pairwise cnt (fun a => OrderDual.toDual (key a))
    l.reverse hrev
  refine hmain.imp ?_
  intro a b hab
  rcases hab with h1 | ⟨h2, h3⟩
  · exact Or.inl h1
  · exact Or.inr ⟨h2, by simpa using h3⟩

/-
First-passage and latest-bar lemmas on time-sorted lists.
-/

lemma head_filter_first {α : Type} (key : α → ℕ) (P : α → Bool) :
    ∀ l : List α, l.Pairwise (fun a b => key a < key b) →
      ∀ x, (l.filter P).head? = some x →
        P x = true ∧ x ∈ l ∧ ∀ b ∈ l, key b < key x → P b = false := by
  intro l
  induction l with
  | nil => intro _ x hx; simp at hx
  | cons a t ih =>
    intro hp x hx
    rcases List.pairwise_cons.mp hp with ⟨ha, ht⟩
    by_cases hPa : P a = true
    · rw [List.filter_cons_of_pos hPa] at hx
      simp only [List.head?_cons, Option.some.injEq] at hx
      subst hx
      refine ⟨hPa, List.mem_cons_self _ _, ?_⟩
      intro b hb hlt
      rcases List.mem_cons.mp hb with rfl | hbt
      · exact absurd hlt (lt_irrefl _)
      · exact absurd (lt_trans hlt (ha b hbt)) (lt_irrefl _)
    · have hPa2 : P a = false := by
        cases hv : P a
        · rfl
        · exact absurd hv hPa
      rw [List.filter_cons_of_neg (by simp [hPa2])] at hx
      rcases ih ht x hx with ⟨h1, h2, h3⟩
      refine ⟨h1, List.mem_cons_of_mem a h2, ?_⟩
      intro b hb hlt
      rcases List.mem_cons.mp hb with rfl | hbt
      · exact hPa2
      · exact h3 b hbt hlt

lemma mem_of_getLast_some {α : Type} :
    ∀ (l : List α) (x : α), l.getLast? = some x → x ∈ l := by
  intro l
  induction l with
  | nil => intro x hx; simp at hx
  | cons a t ih =>
    intro x hx
    cases t with
    | nil =>
      simp only [List.getLast?_singleton, Option.some.injEq] at hx
      subst hx
      exact List.mem_cons_self _ _
    | cons c u =>
      rw [List.getLast?_cons_cons] at hx
      exact List.mem_cons_of_mem a (ih x hx)

lemma getLast_key_max {α : Type} (key : α → ℕ) :
    ∀ l : List α, l.Pairwise (fun a b => key a < key b) →
      ∀ x, l.getLast? = some x → ∀ b ∈ l, key b ≤ key x := by
  intro l
  induction l with
  | nil => intro _ x hx; simp at hx
  | cons a t ih =>
    intro hp x hx b hb
    rcases List.pairwise_cons.mp hp with ⟨ha, ht⟩
    cases t with
    | nil =>
      simp only [List.getLast?_singleton, Option.some.injEq] at hx
      subst hx
      rcases List.mem_cons.mp hb with rfl | hbt
      · exact le_refl _
      · simp at hbt
    | cons c u =>
      rw [List.getLast?_cons_cons] at hx
      rcases List.mem_cons.mp hb with rfl | hbt
      · exact le_of_lt (ha x (mem_of_getLast_some _ _ hx))
      · exact ih ht x hx b hbt

/-
Inversion lemmas for the matcher and the pipeline.
-/

lemma matchOne_eq_some {L G : ℚ} {data : List Bar} {sig : SigRow} {f : ℕ} {pr : PairRec}
    (h : matchOne L G data sig f = some pr) :
    ∃ lastBar first,
      ((symbolBars data f).filter fun b => decide (dtm b ≤ sig.time)).getLast? =
        some lastBar ∧
      (((symbolBars data f).filter fun b =>
            decide (sig.time < dtm b) && decide ((dtm b : ℚ) ≤ (sig.time : ℚ) + L)).filter
          fun b => decide (G ≤ gainPct lastBar.close_price b)).head? = some first ∧
      pr = ⟨sig.symbol, f, sig.time, dtm first, (dtm first : ℚ) - (sig.time : ℚ),
            sig.close_price, sig.large_total, sig.large_net,
            sig.return_1min.getD 0 * 100, lastBar.close_price, first.close_price,
            gainPct lastBar.close_price first, sig.is_enhanced⟩ := by
  simp only [matchOne] at h
  split at h
  · exact absurd h (by simp)
  · rename_i lastBar hlast
    split at h
    · exact absurd h (by simp)
    · split at h
      · exact absurd h (by simp)
      · rename_i first hfirst
        refine ⟨lastBar, first, hlast, hfirst, ?_⟩
        injection h with h2
        exact h2.symm

lemma mem_analyzePairs {L G : ℚ} {p : SignalParams} {data : List Bar} {pr : PairRec}
    (h : pr ∈ analyzePairs L G p data) :
    ∃ sig ∈ leaderSignalRows p data, ∃ f ∈ stocks data,
      matchOne L G data sig f = some pr := by
  simp only [analyzePairs, List.mem_flatMap, List.mem_filterMap, List.mem_filter] at h
  obtain ⟨sig, hsig, f, ⟨hf, _⟩, hm⟩ := h
  exact ⟨sig, hsig, f, hf, hm⟩

lemma mem_leaderSignalRows {p : SignalParams} {data : List Bar} {s : SigRow}
    (h : s ∈ leaderSignalRows p data) :
    ∃ sym ∈ stocks data, ∃ i, i < (symbolBars data sym).length ∧
      leaderSignal p (symbolBars data sym) i = true ∧
      s.time = dtm ((symbolBars data sym).getD i default) ∧
      (symbolBars data sym).getD i default ∈ symbolBars data sym := by
  simp only [leaderSignalRows, List.mem_flatMap] at h
  obtain ⟨sym, hsym, hs⟩ := h
  simp only [signalRowsOfSymbol, List.mem_filterMap, List.mem_range] at hs
  obtain ⟨i, hi, hsome⟩ := hs
  by_cases hls : leaderSignal p (symbolBars data sym) i = true
  · rw [if_pos hls] at hsome
    injection hsome with h2
    refine ⟨sym, hsym, i, hi, hls, ?_, ?_⟩
    · rw [← h2]
    · rw [List.getD_eq_getElem _ _ hi]
      exact List.getElem_mem hi
  · rw [if_neg hls] at hsome
    exact absurd hsome (by simp)

lemma mem_symbolBars {data : List Bar} {s : ℕ} {b : Bar} (h : b ∈ symbolBars data s) :
    b ∈ data :=
  (List.mem_filter.mp h).1

lemma mem_loadData {raws : List Bar} {b : Bar} (h : b ∈ loadData raws) :
    b ∈ raws ∧ tradingMask b = true := by
  unfold loadData at h
  rw [mem_sortLe] at h
  exact ⟨(List.mem_filter.mp h).1, (List.mem_filter.mp h).2⟩

lemma tradingMask_bounds {b : Bar} (hh : b.hour < 24) (hm : b.minute < 60)
    (ht : tradingMask b = true) :
    541 ≤ 60 * b.hour + b.minute ∧ 60 * b.hour + b.minute ≤ 810 := by
  simp only [tradingMask, Bool.or_eq_true, Bool.and_eq_true, beq_iff_eq,
    decide_eq_true_eq] at ht
  omega

lemma dtm_mod_1440 (b : Bar) (hh : b.hour < 24) (hm : b.minute < 60) :
    dtm b % 1440 = 60 * b.hour + b.minute := by
  unfold dtm
  omega

lemma mem_of_head_some {α : Type} {l : List α} {x : α} (h : l.head? = some x) : x ∈ l := by
  cases l with
  | nil => simp at h
  | cons a t =>
    simp only [List.head?_cons, Option.some.injEq] at h
    subst h
    exact List.mem_cons_self _ _

/-
Claim theorems.
-/

/-- C2: a bar is flagged as a leader signal iff all five conjuncts hold —
the money-multiple condition, the absolute amount floor, positive net
flow, the one-minute return above the floor (which requires the return
to exist at all), and a daily or 30-minute high; consequently every
flagged signal satisfies all five conjuncts. -/
theorem leader_signal_iff_five_conjuncts (p : SignalParams) (bars : List Bar) (i : ℕ) :
    leaderSignal p bars i = true ↔
      (largeTotalMA30 bars i * p.money_multiplier < largeTotal (bars.getD i default) ∧
       p.min_amount < largeTotal (bars.getD i default) ∧
       0 < largeNet (bars.getD i default) ∧
       (∃ r, return1 bars i = some r ∧ p.min_price_change < r) ∧
       (isDailyHigh bars i = true ∨ is30minHigh bars i = true)) := by
  cases hr : return1 bars i with
  | none => simp [leaderSignal, hr]
  | some r => simp [leaderSignal, hr, and_assoc]

/-- C9: the first bar of every symbol's sequence is never flagged: its
`return_1min` is missing (pandas `NaN`), the price-change conjunct
therefore fails, and the whole predicate is false for every parameter
setting. -/
theorem first_bar_never_flagged (p : SignalParams) (bars : List Bar) :
    leaderSignal p bars 0 = false := by
  have h : return1 bars 0 = none := rfl
  simp [leaderSignal, h]

/-- C7: the aggregator applied to an empty pair collection returns the
empty summary dict without raising (the function is total), a value
whose mere presence distinguishes it from a never-computed result. -/
theorem aggregator_empty_returns_empty_summary :
    calculate_success_rates [] = StatsResult.emptyDict := rfl

/-- C8: all three summary tables are ordered by descending pair count,
and rows with equal counts appear in the natural ASCENDING order of
their aggregation key, deterministically for every input pair
collection: pandas computes a descending `sort_values` by reversing the
values before an ascending argsort and the indexer after, so (with the
stable argsort of these small tables) count ties keep the ascending-key
order of the `groupby` output. -/
theorem ranking_tables_sorted (pairs : List PairRec) :
    (leaderRanking pairs).Pairwise
      (fun a b => b.count < a.count ∨ (b.count = a.count ∧ a.symbol < b.symbol)) ∧
    (followerRanking pairs).Pairwise
      (fun a b => b.count < a.count ∨ (b.count = a.count ∧ a.symbol < b.symbol)) ∧
    (bestPairs pairs).Pairwise
      (fun a b => b.count < a.count ∨
        (b.count = a.count ∧
          toLex (a.leader, a.follower) < toLex (b.leader, b.follower))) := by
  refine ⟨?_, ?_, ?_⟩
  · unfold leaderRanking
    apply sortCountDesc_pairwise LeaderRow.count (fun r => r.symbol)
    rw [List.pairwise_map]
    exact pairwise_sortedKeys _
  · unfold followerRanking
    apply sortCountDesc_pairwise FollowerRow.count (fun r => r.symbol)
    rw [List.pairwise_map]
    exact pairwise_sortedKeys _
  · unfold bestPairs
    apply sortCountDesc_pairwise PairRow.count (fun r => toLex (r.leader, r.follower))
    rw [List.pairwise_map]
    exact pairwise_sortedKeys _

/-- C6 counterexample: a misconfigured `money_multiplier = 1/2 ≤ 1` is
not rejected — `identify_leader_signals` performs no parameter
validation, runs the scan, and produces a nonempty signal list. -/
theorem parameter_validation_cex :
    exParams6.money_multiplier ≤ 1 ∧ leaderSignalRows exParams6 exData ≠ [] := by
  constructor
  · norm_num [exParams6]
  · simp [exSignals6]

lemma matchOne_none_of_nonpos {L G : ℚ} {data : List Bar} {sig : SigRow} {f : ℕ}
    (hL : L ≤ 0) : matchOne L G data sig f = none := by
  have hw : ((symbolBars data f).filter fun b =>
      decide (sig.time < dtm b) && decide ((dtm b : ℚ) ≤ (sig.time : ℚ) + L)) = [] := by
    rw [List.filter_eq_nil_iff]
    intro b _
    simp only [Bool.and_eq_true, decide_eq_true_eq, not_and]
    intro hlt
    have hqlt : (sig.time : ℚ) < (dtm b : ℚ) := by exact_mod_cast hlt
    intro hle
    linarith
  simp only [matchOne]
  split
  · rfl
  · rw [hw]
    simp

/-- C6 amended: the code performs no parameter validation at the API
boundary; the scans run for every parameter value.  Signal output can be
nonempty with `money_multiplier ≤ 1` (see the counterexample), and a
misconfigured `max_lag_minutes ≤ 0` makes the matcher run to completion
and return an empty pair list (every response window is empty), not
raise an error. -/
theorem nonpositive_max_lag_yields_no_pairs (L G : ℚ) (p : SignalParams)
    (data : List Bar) (hL : L ≤ 0) : analyzePairs L G p data = [] := by
  unfold analyzePairs
  rw [List.flatMap_eq_nil_iff]
  intro sig _
  rw [List.filterMap_eq_nil_iff]
  intro f _
  rw [matchOne_none_of_nonpos hL]

/-- Witness for the C6 amended theorem at `max_lag_minutes = 0` on the
example dataset. -/
theorem nonpositive_max_lag_witness :
    (0 : ℚ) ≤ 0 ∧ analyzePairs 0 (1 / 2) exParams exData = [] :=
  ⟨le_refl 0, nonpositive_max_lag_yields_no_pairs 0 (1 / 2) exParams exData (le_refl 0)⟩

/-- C5 counterexample: two bar sequences of the same symbol that agree
up to minute 0 (their first bars are equal) but differ at a LATER bar of
the same calendar day give different `daily_high` values at minute 0 —
`daily_high` looks ahead into the rest of the day. -/
theorem daily_high_lookahead_cex :
    ([exA1, exA2] : List Bar).take 1 = [exA1, exL2].take 1 ∧
    dailyHigh [exA1, exA2] 0 ≠ dailyHigh [exA1, exL2] 0 := by
  constructor
  · rfl
  · have h1 : dailyHigh [exA1, exA2] 0 = 11 := by
      norm_num [dailyHigh, exA1, exA2, max_def]
    have h2 : dailyHigh [exA1, exL2] 0 = 10 := by
      norm_num [dailyHigh, exA1, exL2, max_def]
    rw [h1, h2]
    norm_num

/-- C5 amended: the derived fields other than the daily extremes —
`return_1min`, `large_total_ma30`, `rolling_max_30min`, and the
`is_30min_high` flag — depend only on the symbol's bars up to and
including the current minute: two histories that agree on the first
`i + 1` bars agree on these values at row `i`.  (`daily_high`,
`daily_low` and the flags built from them are computed over the whole
calendar day, later bars included, as the counterexample shows.) -/
theorem causal_fields_prefix_determined (bars bars2 : List Bar) (i : ℕ)
    (h1 : i < bars.length) (h2 : i < bars2.length)
    (hpre : bars.take (i + 1) = bars2.take (i + 1)) :
    return1 bars i = return1 bars2 i ∧
    largeTotalMA30 bars i = largeTotalMA30 bars2 i ∧
    rollingMax30 bars i = rollingMax30 bars2 i ∧
    is30minHigh bars i = is30minHigh bars2 i := by
  have hget : ∀ j, j ≤ i → bars[j]? = bars2[j]? := by
    intro j hj
    have hc := congrArg (fun l => l[j]?) hpre
    simpa [List.getElem?_take, Nat.lt_succ_of_le hj] using hc
  have htake : ∀ f : Bar → ℚ, (bars.map f).take (i + 1) = (bars2.map f).take (i + 1) := by
    intro f
    rw [← List.map_take, ← List.map_take, hpre]
  have hgd : bars.getD i default = bars2.getD i default := by
    rw [List.getD_eq_getElem _ _ h1, List.getD_eq_getElem _ _ h2]
    have hq := hget i (le_refl i)
    rw [List.getElem?_eq_getElem h1, List.getElem?_eq_getElem h2] at hq
    exact Option.some.inj hq
  refine ⟨?_, ?_, ?_, ?_⟩
  · cases i with
    | zero => rfl
    | succ j =>
      simp only [return1]
      rw [hget (j + 1) (le_refl _), hget j (Nat.le_succ_of_le (le_refl j))]
  · unfold largeTotalMA30 trailing30
    rw [htake largeTotal]
  · unfold rollingMax30 trailing30
    rw [htake (·.close_price), hgd]
  · unfold is30minHigh rollingMax30 trailing30
    rw [htake (·.close_price), hgd]

/-- Witness for the C5 amended theorem: the two counterexample
histories agree at minute 0, so the causal fields agree there. -/
theorem causal_fields_witness :
    0 < ([exA1, exA2] : List Bar).length ∧ 0 < ([exA1, exL2] : List Bar).length ∧
    ([exA1, exA2] : List Bar).take 1 = [exA1, exL2].take 1 ∧
    (return1 [exA1, exA2] 0 = return1 [exA1, exL2] 0 ∧
     largeTotalMA30 [exA1, exA2] 0 = largeTotalMA30 [exA1, exL2] 0 ∧
     rollingMax30 [exA1, exA2] 0 = rollingMax30 [exA1, exL2] 0 ∧
     is30minHigh [exA1, exA2] 0 = is30minHigh [exA1, exL2] 0) :=
  ⟨by decide, by decide, rfl,
    causal_fields_prefix_determined [exA1, exA2] [exA1, exL2] 0 (by decide) (by decide) rfl⟩

/-- C3: every emitted pair's `time_lag_minutes` (the elapsed minutes
between leader and follower timestamps) satisfies
`0 < time_lag_minutes ≤ max_lag_minutes`, because only follower bars
with `leader_time < timestamp ≤ leader_time + max_lag_minutes` are
candidates. -/
theorem pair_time_lag_in_window (L G : ℚ) (p : SignalParams) (data : List Bar)
    (pr : PairRec) (hpr : pr ∈ analyzePairs L G p data) :
    0 < pr.time_lag_minutes ∧ pr.time_lag_minutes ≤ L := by
  obtain ⟨sig, hsig, f, hf, hm⟩ := mem_analyzePairs hpr
  obtain ⟨lastBar, first, hlast, hhead, hpr_eq⟩ := matchOne_eq_some hm
  have h1 := mem_of_head_some hhead
  obtain ⟨hw, _⟩ := List.mem_filter.mp h1
  obtain ⟨_, hcond⟩ := List.mem_filter.mp hw
  rw [Bool.and_eq_true, decide_eq_true_eq, decide_eq_true_eq] at hcond
  obtain ⟨hlt, hle⟩ := hcond
  have hqlt : (sig.time : ℚ) < (dtm first : ℚ) := by exact_mod_cast hlt
  subst hpr_eq
  constructor
  · simpa using sub_pos.mpr hqlt
  · simp only
    linarith

/-- Witness for C3 on the example run: the emitted pair has lag 1 within
the 30-minute window. -/
theorem pair_time_lag_witness :
    exPair ∈ analyzePairs 30 (1 / 2) exParams exData ∧
    (0 < exPair.time_lag_minutes ∧ exPair.time_lag_minutes ≤ 30) :=
  ⟨by rw [exRun]; exact List.mem_cons_self _ _,
    pair_time_lag_in_window 30 (1 / 2) exParams exData exPair (by rw [exRun]; exact List.mem_cons_self _ _)⟩

/-- C1: every emitted pair records the FIRST follower bar in the window
`(leader_time, leader_time + max_lag]` whose gain over the base price
reaches `min_gain`: the recorded gain is the gain at that bar (hence at
least `min_gain`, not the window's maximum), the bar exists in the
follower's data, and no follower bar strictly between `leader_time` and
`follower_time` reaches `min_gain`. -/
theorem first_passage_of_emitted_pairs (L G : ℚ) (p : SignalParams) (data : List Bar)
    (hs : ∀ s ∈ stocks data, (symbolBars data s).Pairwise (fun a b => dtm a < dtm b))
    (pr : PairRec) (hpr : pr ∈ analyzePairs L G p data) :
    G ≤ pr.follower_gain_pct ∧
    pr.follower_gain_pct =
      (pr.follower_trigger_price - pr.follower_base_price) /
        pr.follower_base_price * 100 ∧
    (∃ b ∈ symbolBars data pr.follower_symbol, dtm b = pr.follower_time ∧
      b.close_price = pr.follower_trigger_price ∧ pr.leader_time < dtm b ∧
      (dtm b : ℚ) ≤ (pr.leader_time : ℚ) + L) ∧
    ∀ b ∈ symbolBars data pr.follower_symbol,
      pr.leader_time < dtm b → dtm b < pr.follower_time →
        gainPct pr.follower_base_price b < G := by
  obtain ⟨sig, hsig, f, hf, hm⟩ := mem_analyzePairs hpr
  obtain ⟨lastBar, first, hlast, hhead, hpr_eq⟩ := matchOne_eq_some hm
  have hpw : (symbolBars data f).Pairwise (fun a b => dtm a < dtm b) := hs f hf
  have hpww : ((symbolBars data f).filter fun b =>
      decide (sig.time < dtm b) &&
        decide ((dtm b : ℚ) ≤ (sig.time : ℚ) + L)).Pairwise
      (fun a b => dtm a < dtm b) := hpw.filter _
  obtain ⟨hPfirst, hfirstw, hnone⟩ := head_filter_first dtm _ _ hpww first hhead
  obtain ⟨hfmem, hfcond⟩ := List.mem_filter.mp hfirstw
  rw [Bool.and_eq_true, decide_eq_true_eq, decide_eq_true_eq] at hfcond
  subst hpr_eq
  refine ⟨of_decide_eq_true hPfirst, rfl, ⟨first, hfmem, rfl, rfl, hfcond.1, hfcond.2⟩, ?_⟩
  intro b hb hlt1 hlt2
  simp only at hlt1 hlt2
  have hbw : b ∈ (symbolBars data f).filter fun c =>
      decide (sig.time < dtm c) && decide ((dtm c : ℚ) ≤ (sig.time : ℚ) + L) := by
    refine List.mem_filter.mpr ⟨hb, ?_⟩
    rw [Bool.and_eq_true, decide_eq_true_eq, decide_eq_true_eq]
    have hcast : (dtm b : ℚ) < (dtm first : ℚ) := by exact_mod_cast hlt2
    exact ⟨hlt1, le_trans (le_of_lt hcast) hfcond.2⟩
  have hfalse := hnone b hbw hlt2
  have := of_decide_eq_false hfalse
  exact lt_of_not_le this

/-- Witness for C1 on the example run: the timestamps of both example
stocks are strictly increasing, the run emits `exPair`, and the theorem
applies to it. -/
theorem first_passage_witness :
    (∀ s ∈ stocks exData, (symbolBars exData s).Pairwise (fun a b => dtm a < dtm b)) ∧
    exPair ∈ analyzePairs 30 (1 / 2) exParams exData ∧
    (((1 : ℚ) / 2) ≤ exPair.follower_gain_pct ∧
     exPair.follower_gain_pct =
       (exPair.follower_trigger_price - exPair.follower_base_price) /
         exPair.follower_base_price * 100 ∧
     (∃ b ∈ symbolBars exData exPair.follower_symbol, dtm b = exPair.follower_time ∧
       b.close_price = exPair.follower_trigger_price ∧ exPair.leader_time < dtm b ∧
       (dtm b : ℚ) ≤ (exPair.leader_time : ℚ) + 30) ∧
     ∀ b ∈ symbolBars exData exPair.follower_symbol,
       exPair.leader_time < dtm b → dtm b < exPair.follower_time →
         gainPct exPair.follower_base_price b < 1 / 2) :=
  ⟨by decide, by rw [exRun]; exact List.mem_cons_self _ _,
    first_passage_of_emitted_pairs 30 (1 / 2) exParams exData (by decide) exPair
      (by rw [exRun]; exact List.mem_cons_self _ _)⟩

/-- C4: for a leader signal at time `t` and a candidate follower `f`,
the base price is the follower's close at its LATEST bar with
`timestamp ≤ t`; when the follower has no bar at or before `t`, the
combination is skipped (`matchOne` returns `none` — a non-match, not an
error; the function is total, so the rest of the run is unaffected). -/
theorem base_price_latest_at_or_before (L G : ℚ) (data : List Bar) (sig : SigRow)
    (f : ℕ) (hsrt : (symbolBars data f).Pairwise (fun a b => dtm a < dtm b)) :
    (((symbolBars data f).filter fun b => decide (dtm b ≤ sig.time)) = [] →
      matchOne L G data sig f = none) ∧
    ∀ pr, matchOne L G data sig f = some pr →
      ∃ b ∈ symbolBars data f, dtm b ≤ sig.time ∧
        pr.follower_base_price = b.close_price ∧
        ∀ c ∈ symbolBars data f, dtm c ≤ sig.time → dtm c ≤ dtm b := by
  constructor
  · intro hnil
    simp only [matchOne, hnil]
    rfl
  · intro pr hm
    obtain ⟨lastBar, first, hlast, hhead, hpr_eq⟩ := matchOne_eq_some hm
    have hmem := mem_of_getLast_some _ _ hlast
    obtain ⟨hmem2, hcond⟩ := List.mem_filter.mp hmem
    refine ⟨lastBar, hmem2, of_decide_eq_true hcond, by rw [hpr_eq], ?_⟩
    intro c hc hcle
    have hpwf : ((symbolBars data f).filter fun b =>
        decide (dtm b ≤ sig.time)).Pairwise (fun a b => dtm a < dtm b) := hsrt.filter _
    exact getLast_key_max dtm _ hpwf lastBar hlast c
      (List.mem_filter.mpr ⟨hc, decide_eq_true hcle⟩)

/-- Witness for C4 at the example signal and follower 2: the base price
is the close of stock 2's latest bar at or before 09:02. -/
theorem base_price_witness :
    (symbolBars exData 2).Pairwise (fun a b => dtm a < dtm b) ∧
    ((((symbolBars exData 2).filter fun b => decide (dtm b ≤ exSig.time)) = [] →
       matchOne 30 (1 / 2) exData exSig 2 = none) ∧
     ∀ pr, matchOne 30 (1 / 2) exData exSig 2 = some pr →
       ∃ b ∈ symbolBars exData 2, dtm b ≤ exSig.time ∧
         pr.follower_base_price = b.close_price ∧
         ∀ c ∈ symbolBars exData 2, dtm c ≤ exSig.time → dtm c ≤ dtm b) :=
  ⟨by decide, base_price_latest_at_or_before 30 (1 / 2) exData exSig 2 (by decide)⟩

/-- C10: loading silently restricts the dataset to bars whose time of
day lies in 09:01–13:30 inclusive (minute-of-day 541 to 810); as a
consequence every signal timestamp and both timestamps of every emitted
pair lie in that band (for well-formed clock times). -/
theorem trading_hours_restriction (raws : List Bar)
    (hvalid : ∀ b ∈ raws, b.hour < 24 ∧ b.minute < 60) (p : SignalParams) (L G : ℚ) :
    (∀ b ∈ loadData raws,
      541 ≤ 60 * b.hour + b.minute ∧ 60 * b.hour + b.minute ≤ 810) ∧
    (∀ s ∈ leaderSignalRows p (loadData raws),
      541 ≤ s.time % 1440 ∧ s.time % 1440 ≤ 810) ∧
    (∀ pr ∈ analyzePairs L G p (loadData raws),
      (541 ≤ pr.leader_time % 1440 ∧ pr.leader_time % 1440 ≤ 810) ∧
      (541 ≤ pr.follower_time % 1440 ∧ pr.follower_time % 1440 ≤ 810)) := by
  have hbar : ∀ b ∈ loadData raws,
      541 ≤ 60 * b.hour + b.minute ∧ 60 * b.hour + b.minute ≤ 810 := by
    intro b hb
    obtain ⟨hbr, hmask⟩ := mem_loadData hb
    exact tradingMask_bounds (hvalid b hbr).1 (hvalid b hbr).2 hmask
  have hdtm : ∀ b ∈ loadData raws, 541 ≤ dtm b % 1440 ∧ dtm b % 1440 ≤ 810 := by
    intro b hb
    obtain ⟨hbr, _⟩ := mem_loadData hb
    rw [dtm_mod_1440 b (hvalid b hbr).1 (hvalid b hbr).2]
    exact hbar b hb
  have hsigt : ∀ s ∈ leaderSignalRows p (loadData raws),
      541 ≤ s.time % 1440 ∧ s.time % 1440 ≤ 810 := by
    intro s hsg
    obtain ⟨sym, hsym, i, hi, _, hst, hmem⟩ := mem_leaderSignalRows hsg
    rw [hst]
    exact hdtm _ (mem_symbolBars hmem)
  refine ⟨hbar, hsigt, ?_⟩
  intro pr hpr
  obtain ⟨sig, hsig, f, hf, hm⟩ := mem_analyzePairs hpr
  obtain ⟨lastBar, first, hlast, hhead, hpr_eq⟩ := matchOne_eq_some hm
  have hfirstmem : first ∈ symbolBars (loadData raws) f := by
    have h1 := mem_of_head_some hhead
    exact (List.mem_filter.mp (List.mem_filter.mp h1).1).1
  subst hpr_eq
  exact ⟨hsigt sig hsig, hdtm first (mem_symbolBars hfirstmem)⟩

/-- Witness for C10 on the example dataset, whose clock times are
well-formed. -/
theorem trading_hours_witness :
    (∀ b ∈ exData, b.hour < 24 ∧ b.minute < 60) ∧
    ((∀ b ∈ loadData exData,
       541 ≤ 60 * b.hour + b.minute ∧ 60 * b.hour + b.minute ≤ 810) ∧
     (∀ s ∈ leaderSignalRows exParams (loadData exData),
       541 ≤ s.time % 1440 ∧ s.time % 1440 ≤ 810) ∧
     (∀ pr ∈ analyzePairs 30 (1 / 2) exParams (loadData exData),
       (541 ≤ pr.leader_time % 1440 ∧ pr.leader_time % 1440 ≤ 810) ∧
       (541 ≤ pr.follower_time % 1440 ∧ pr.follower_time % 1440 ≤ 810))) :=
  ⟨by decide, trading_hours_restriction exData (by decide) exParams 30 (1 / 2)⟩

end LeaderFollower
